import Mathlib

/-!
Verification of the multi-block arena allocator (components/arena.c,
multi-block implementation) against its natural-language specification.

The C code is shallowly embedded: `uint64_t` / `uintptr_t` arithmetic is
modelled as `Nat` with explicit reduction modulo `2^64` (`wrap64`), pointers
are modelled as natural-number addresses, and heap reservation
(`posix_memalign` / `malloc`, which the C code checks for failure) is
modelled as always succeeding, with the fresh buffer's base address passed
in as an explicit `freshBase` parameter.
-/

namespace ArenaC

/-- The modulus of `uint64_t` / `uintptr_t` arithmetic, 2^64. -/
def U64 : Nat := 18446744073709551616

/-- Reduction modulo 2^64, applied wherever the C code does 64-bit arithmetic. -/
def wrap64 (n : Nat) : Nat := n % U64

/-- Wrapping 64-bit subtraction `a - b` (operands taken modulo 2^64). -/
def sub64 (a b : Nat) : Nat := (a + U64 - b % U64) % U64

/-- Bitwise 64-bit complement `~x`. -/
def not64 (x : Nat) : Nat := U64 - 1 - wrap64 x

/-- The compiled-in default alignment, `#define ARENA_DEFAULT_ALIGNMENT 8`. -/
def ARENA_DEFAULT_ALIGNMENT : Nat := 8

/-- The compiled-in maximum alignment, `#define ARENA_MAX_ALIGNMENT 16`. -/
def ARENA_MAX_ALIGNMENT : Nat := 16

/-- Model of `align_forward(ptr, alignment)`:
`(ptr + (alignment - 1)) & ~(alignment - 1)` in 64-bit arithmetic. -/
def align_forward (ptr alignment : Nat) : Nat :=
  wrap64 (ptr + sub64 alignment 1) &&& not64 (sub64 alignment 1)

/-- Model of `ArenaBlock`: buffer base address, capacity and used counter.
The `next` pointer of the C struct is represented by the position of the
block in the arena's block list. -/
structure ArenaBlock where
  base : Nat
  capacity : Nat
  used : Nat
deriving Repr, DecidableEq

/-- Model of `Arena`: head-first list of blocks plus alignment settings.
An empty list models a NULL `head` pointer. -/
structure Arena where
  blocks : List ArenaBlock
  alignment : Nat
  max_align : Nat
deriving Repr, DecidableEq

/-- Model of `arena_block_create(capacity, alignment)`, with reservation modelled as
succeeding and returning a buffer at address `freshBase`.  (The C function
normalizes its `alignment` argument, but uses it only as the address
alignment passed to `posix_memalign`; that address is `freshBase` here.) -/
def arena_block_create (freshBase capacity : Nat) : ArenaBlock :=
  { base := freshBase, capacity := capacity, used := 0 }

/-- Model of `arena_create_with_alignment(capacity, alignment)`.  Note the C code
stores the caller's `alignment` argument unmodified in `arena.alignment`. -/
def arena_create_with_alignment (freshBase capacity alignment : Nat) : Arena :=
  { blocks := [arena_block_create freshBase (if capacity > 0 then capacity else 1024)],
    alignment := alignment,
    max_align := ARENA_MAX_ALIGNMENT }

/-- Model of `arena_create(capacity)`. -/
def arena_create (freshBase capacity : Nat) : Arena :=
  arena_create_with_alignment freshBase capacity ARENA_DEFAULT_ALIGNMENT

/-- Model of `arena_destroy(arena)`: frees every block and sets `head = NULL`. -/
def arena_destroy (arena : Arena) : Arena :=
  { arena with blocks := [] }

/-- Model of `arena_reset(arena)`: zeroes every block's used counter. -/
def arena_reset (arena : Arena) : Arena :=
  { arena with blocks := arena.blocks.map (fun b => { b with used := 0 }) }

/-- Model of `arena_used(arena)`: 64-bit sum of `used` over all blocks. -/
def arena_used (arena : Arena) : Nat :=
  arena.blocks.foldl (fun total b => wrap64 (total + b.used)) 0

/-- Model of `arena_remaining(arena)`: head block's `capacity - used` (64-bit). -/
def arena_remaining (arena : Arena) : Nat :=
  match arena.blocks with
  | [] => 0
  | b :: _ => sub64 b.capacity b.used

/-- The alignment normalization performed at the top of
`arena_alloc_aligned`: replace zero / non-power-of-two alignment with the
arena's default, then clamp to `max_align`. -/
def normalizeAlignment (arena : Arena) (alignment : Nat) : Nat :=
  let a := if alignment = 0 ∨ (alignment &&& (alignment - 1)) ≠ 0
           then arena.alignment else alignment
  if a > arena.max_align then arena.max_align else a

/-- The padding computed in the bump path of `arena_alloc_aligned`:
`aligned_ptr - current_ptr` where `current_ptr = buffer + used`. -/
def bumpPadding (block : ArenaBlock) (alignment : Nat) : Nat :=
  sub64 (align_forward (wrap64 (block.base + block.used)) alignment)
        (wrap64 (block.base + block.used))

/-- Model of `arena_alloc_aligned(arena, size, alignment)`.  Returns the returned
pointer (as an address) together with the resulting arena.  `freshBase`
gives the buffer address of the block created on the growth path. -/
def arena_alloc_aligned (freshBase : Nat) (arena : Arena) (size alignment : Nat) :
    Option Nat × Arena :=
  match arena.blocks with
  | [] => (none, arena)
  | block :: rest =>
    if size = 0 then (none, arena)
    else
      let al := normalizeAlignment arena alignment
      let aligned_ptr := align_forward (wrap64 (block.base + block.used)) al
      let padding := bumpPadding block al
      if wrap64 (block.used + padding + size) ≤ block.capacity then
        (some aligned_ptr,
         { arena with blocks := { block with used := wrap64 (block.used + padding + size) } :: rest })
      else
        let new_capacity :=
          if wrap64 (block.capacity * 2) < size then wrap64 (size * 2)
          else wrap64 (block.capacity * 2)
        let new_block : ArenaBlock :=
          { arena_block_create freshBase new_capacity with used := size }
        (some (align_forward freshBase al),
         { arena with blocks := new_block :: block :: rest })

/-- Model of `arena_alloc(arena, size)`: allocate at the arena's default alignment. -/
def arena_alloc (freshBase : Nat) (arena : Arena) (size : Nat) : Option Nat × Arena :=
  arena_alloc_aligned freshBase arena size arena.alignment

/-- Model of `arena_alloc_zeroed(arena, size)`: same state change as `arena_alloc`
(the `memset` does not affect the arena bookkeeping we model). -/
def arena_alloc_zeroed (freshBase : Nat) (arena : Arena) (size : Nat) : Option Nat × Arena :=
  arena_alloc freshBase arena size

/-- Model of `arena_calloc(arena, count, size)`: `total = count * size` in wrapping
64-bit arithmetic, then `arena_alloc_zeroed(arena, total)`.  The C code
performs no overflow check. -/
def arena_calloc (freshBase : Nat) (arena : Arena) (count size : Nat) : Option Nat × Arena :=
  arena_alloc_zeroed freshBase arena (wrap64 (count * size))

/-- Model of `arena_realloc(arena, ptr, old_size, new_size)`.  `ptr = none` models a
NULL pointer.  (When the guard passes and `head` is NULL the C code would
dereference a null pointer; that branch is modelled as failure and is not
relied upon by any theorem below.) -/
def arena_realloc (freshBase : Nat) (arena : Arena) (ptr : Option Nat)
    (old_size new_size : Nat) : Option Nat × Arena :=
  match ptr with
  | none => (none, arena)
  | some p =>
    if new_size = 0 then (none, arena)
    else
      match arena.blocks with
      | [] => (none, arena)
      | block :: rest =>
        if wrap64 (p + old_size) = wrap64 (block.base + block.used) ∧
           wrap64 (sub64 p block.base + new_size) ≤ block.capacity then
          (some p,
           { arena with blocks :=
               { block with used := wrap64 (sub64 p block.base + new_size) } :: rest })
        else
          arena_alloc freshBase arena new_size

/-- Model of `arena_strdup(arena, str)`: `str = none` models a NULL string; the
allocation size is `strlen(str) + 1`. -/
def arena_strdup (freshBase : Nat) (arena : Arena) (str : Option (List Nat)) :
    Option Nat × Arena :=
  match str with
  | none => (none, arena)
  | some s => arena_alloc freshBase arena (wrap64 (s.length + 1))

/-- Model of `arena_strndup(arena, str, n)`. -/
def arena_strndup (freshBase : Nat) (arena : Arena) (str : Option (List Nat)) (n : Nat) :
    Option Nat × Arena :=
  match str with
  | none => (none, arena)
  | some s =>
    let len := if s.length > n then n else s.length
    arena_alloc freshBase arena (wrap64 (len + 1))

/-- Model of `arena_temp_begin(arena)`: the `used` field of the returned `ArenaTemp`
token (the token's arena pointer is the arena the functions below are
applied to). -/
def arena_temp_begin (arena : Arena) : Nat :=
  match arena.blocks with
  | [] => 0
  | b :: _ => b.used

/-- Model of `arena_temp_end(temp)`: restore the head block's used counter. -/
def arena_temp_end (arena : Arena) (saved : Nat) : Arena :=
  match arena.blocks with
  | [] => arena
  | b :: rest => { arena with blocks := { b with used := saved } :: rest }

/-! ### Arithmetic helper lemmas -/

theorem U64_eq : U64 = 2 ^ 64 := by norm_num [U64]

theorem U64_pos : 0 < U64 := by norm_num [U64]

theorem wrap64_eq_of_lt {n : Nat} (h : n < U64) : wrap64 n = n := Nat.mod_eq_of_lt h

theorem wrap64_lt (n : Nat) : wrap64 n < U64 := Nat.mod_lt _ U64_pos

theorem sub64_eq_sub {a b : Nat} (hb : b ≤ a) (ha : a < U64) : sub64 a b = a - b := by
  have hbU : b % U64 = b := Nat.mod_eq_of_lt (lt_of_le_of_lt hb ha)
  unfold sub64
  rw [hbU]
  have h1 : a + U64 - b = U64 + (a - b) := by omega
  rw [h1, Nat.add_mod_left]
  exact Nat.mod_eq_of_lt (by omega)

/-- A nonzero number passing the C power-of-two test `(a & (a-1)) == 0` is a
power of two. -/
theorem two_pow_of_land_eq_zero {a : Nat} (h0 : a ≠ 0) (h : a &&& (a - 1) = 0) :
    a = 2 ^ a.log2 := by
  by_contra hne
  have h1 : 2 ^ a.log2 ≤ a := Nat.log2_self_le h0
  have h2 : a < 2 ^ (a.log2 + 1) := Nat.lt_log2_self
  have h3 : 2 ^ a.log2 < a := lt_of_le_of_ne h1 fun he => hne he.symm
  have hpos : 0 < 2 ^ a.log2 := Nat.pos_pow_of_pos _ (by norm_num)
  have hdiva : a / 2 ^ a.log2 = 1 := by
    apply Nat.div_eq_of_lt_le (by omega)
    have : 2 ^ (a.log2 + 1) = 2 * 2 ^ a.log2 := by ring
    omega
  have hdivb : (a - 1) / 2 ^ a.log2 = 1 := by
    apply Nat.div_eq_of_lt_le (by omega)
    have : 2 ^ (a.log2 + 1) = 2 * 2 ^ a.log2 := by ring
    omega
  have ta : a.testBit a.log2 = true := by
    rw [Nat.testBit_to_div_mod, hdiva]
    simp
  have tb : (a - 1).testBit a.log2 = true := by
    rw [Nat.testBit_to_div_mod, hdivb]
    simp
  have : (a &&& (a - 1)).testBit a.log2 = true := by
    rw [Nat.testBit_land, ta, tb]
    rfl
  rw [h, Nat.zero_testBit] at this
  exact Bool.false_ne_true this

/-- Masking with `2^64 - 2^k` clears the low `k` bits. -/
theorem land_mask {y k : Nat} (hk : k ≤ 64) (hy : y < 2 ^ 64) :
    y &&& (2 ^ 64 - 2 ^ k) = 2 ^ k * (y / 2 ^ k) := by
  have hmask : (2:Nat) ^ 64 - 2 ^ k = (2 ^ (64 - k) - 1) <<< k := by
    rw [Nat.shiftLeft_eq, Nat.sub_mul, one_mul, ← Nat.pow_add]
    congr 2
    omega
  have hrhs : 2 ^ k * (y / 2 ^ k) = (y >>> k) <<< k := by
    rw [Nat.shiftRight_eq_div_pow, Nat.shiftLeft_eq, Nat.mul_comm]
  rw [hmask, hrhs]
  apply Nat.eq_of_testBit_eq
  intro i
  rw [Nat.testBit_land, Nat.testBit_shiftLeft, Nat.testBit_shiftLeft, Nat.testBit_shiftRight,
      Nat.testBit_two_pow_sub_one]
  by_cases hik : k ≤ i
  · by_cases hi64 : i < 64
    · have hlt : i - k < 64 - k := by omega
      have hadd : k + (i - k) = i := by omega
      simp [hik, hlt, hadd, Bool.and_comm]
    · have hybit : y.testBit i = false :=
        Nat.testBit_lt_two_pow
          (lt_of_lt_of_le hy (Nat.pow_le_pow_right (by norm_num) (by omega)))
      have hnlt : ¬(i - k < 64 - k) := by omega
      have hadd : k + (i - k) = i := by omega
      simp [hik, hnlt, hadd, hybit]
  · simp [hik]

/-- Characterization of `align_forward` at a power-of-two alignment, in the
wrap-free range: it rounds up to the next multiple of `2^k`. -/
theorem align_forward_two_pow {x k : Nat} (hk : k ≤ 63) (hx : x + 2 ^ k ≤ 2 ^ 64) :
    align_forward x (2 ^ k) = 2 ^ k * ((x + 2 ^ k - 1) / 2 ^ k) := by
  have hpos : (1:Nat) ≤ 2 ^ k := Nat.one_le_two_pow
  have hlt : (2:Nat) ^ k < U64 := by
    rw [U64_eq]
    exact Nat.pow_lt_pow_right (by norm_num) (by omega)
  have hsub : sub64 (2 ^ k) 1 = 2 ^ k - 1 := sub64_eq_sub hpos hlt
  have hnot : not64 (2 ^ k - 1) = 2 ^ 64 - 2 ^ k := by
    unfold not64
    rw [wrap64_eq_of_lt (by omega), U64_eq]
    omega
  have hmod : wrap64 (x + (2 ^ k - 1)) = x + 2 ^ k - 1 := by
    have h2 : x + (2 ^ k - 1) = x + 2 ^ k - 1 := by omega
    rw [h2]
    exact wrap64_eq_of_lt (by rw [U64_eq]; omega)
  unfold align_forward
  rw [hsub, hnot, hmod]
  have h1 := land_mask (y := x + 2 ^ k - 1) (k := k) (by omega) (by omega)
  rw [h1]

/-- The result of `align_forward` at a power-of-two alignment is at least the
input pointer (wrap-free range). -/
theorem align_forward_ge {x k : Nat} (hk : k ≤ 63) (hx : x + 2 ^ k ≤ 2 ^ 64) :
    x ≤ align_forward x (2 ^ k) := by
  rw [align_forward_two_pow hk hx]
  have hpos : (0:Nat) < 2 ^ k := Nat.pos_pow_of_pos _ (by norm_num)
  have hdm := Nat.div_add_mod (x + 2 ^ k - 1) (2 ^ k)
  have hmlt : (x + 2 ^ k - 1) % 2 ^ k < 2 ^ k := Nat.mod_lt _ hpos
  omega

/-- The result of `align_forward` at a power-of-two alignment is less than
`x + 2^k` (wrap-free range). -/
theorem align_forward_lt_add {x k : Nat} (hk : k ≤ 63) (hx : x + 2 ^ k ≤ 2 ^ 64) :
    align_forward x (2 ^ k) < x + 2 ^ k := by
  rw [align_forward_two_pow hk hx]
  have hpos : (0:Nat) < 2 ^ k := Nat.pos_pow_of_pos _ (by norm_num)
  have hdm := Nat.div_add_mod (x + 2 ^ k - 1) (2 ^ k)
  have hmlt : (x + 2 ^ k - 1) % 2 ^ k < 2 ^ k := Nat.mod_lt _ hpos
  omega

/-- The function `align_forward` at a power-of-two alignment always returns a multiple of
that alignment, with no wrap-free side condition. -/
theorem align_forward_mod {x k : Nat} (hk : k ≤ 63) :
    align_forward x (2 ^ k) % 2 ^ k = 0 := by
  have hpos : (1:Nat) ≤ 2 ^ k := Nat.one_le_two_pow
  have hlt : (2:Nat) ^ k < U64 := by
    rw [U64_eq]
    exact Nat.pow_lt_pow_right (by norm_num) (by omega)
  have hsub : sub64 (2 ^ k) 1 = 2 ^ k - 1 := sub64_eq_sub hpos hlt
  have hnot : not64 (2 ^ k - 1) = 2 ^ 64 - 2 ^ k := by
    unfold not64
    rw [wrap64_eq_of_lt (by omega), U64_eq]
    omega
  unfold align_forward
  rw [hsub, hnot]
  rw [land_mask (by omega) (by rw [← U64_eq]; exact wrap64_lt _)]
  exact Nat.mul_mod_right _ _

/-- Well-formedness of an arena as the claims assume it: every block's used
counter is within capacity and its buffer lies in the low half of the address
space, the default alignment is a (nonzero) power of two in the sense of the
C test, and the maximum alignment is the compiled-in 16. -/
def Arena.WF (a : Arena) : Prop :=
  (∀ b ∈ a.blocks, b.used ≤ b.capacity ∧ b.base + b.capacity + 16 ≤ 2 ^ 63) ∧
  (a.alignment ≠ 0 ∧ a.alignment &&& (a.alignment - 1) = 0) ∧
  a.max_align = 16

instance (a : Arena) : Decidable a.WF := by
  unfold Arena.WF
  infer_instance

/-- Under well-formedness, the normalized-and-clamped alignment is a power of
two no larger than 16. -/
theorem normalizeAlignment_two_pow (arena : Arena) (alignment : Nat)
    (h0 : arena.alignment ≠ 0) (h1 : arena.alignment &&& (arena.alignment - 1) = 0)
    (hmax : arena.max_align = 16) :
    ∃ k, k ≤ 4 ∧ normalizeAlignment arena alignment = 2 ^ k := by
  unfold normalizeAlignment
  by_cases hc : alignment = 0 ∨ (alignment &&& (alignment - 1)) ≠ 0
  · simp only [hc, if_true, hmax]
    have ha : arena.alignment = 2 ^ arena.alignment.log2 := two_pow_of_land_eq_zero h0 h1
    by_cases hgt : arena.alignment > 16
    · simp only [if_pos hgt]
      exact ⟨4, by norm_num⟩
    · simp only [if_neg hgt]
      refine ⟨arena.alignment.log2, ?_, ha⟩
      have : 2 ^ arena.alignment.log2 ≤ 2 ^ 4 := by
        rw [← ha]
        omega
      exact (Nat.pow_le_pow_iff_right (by norm_num)).mp this
  · simp only [hc, if_false, hmax]
    push_neg at hc
    have ha : alignment = 2 ^ alignment.log2 := two_pow_of_land_eq_zero hc.1 hc.2
    by_cases hgt : alignment > 16
    · simp only [if_pos hgt]
      exact ⟨4, by norm_num⟩
    · simp only [if_neg hgt]
      refine ⟨alignment.log2, ?_, ha⟩
      have : 2 ^ alignment.log2 ≤ 2 ^ 4 := by
        rw [← ha]
        omega
      exact (Nat.pow_le_pow_iff_right (by norm_num)).mp this

/-! ### Concrete scenarios used by the growth-path aliasing analysis -/

/-- An arena whose head block buffer starts at address 0 with capacity 16 and
10 bytes used; default alignment 8, max alignment 16. -/
def overlapArena : Arena :=
  { blocks := [{ base := 0, capacity := 16, used := 10 }], alignment := 8, max_align := 16 }

/-- A 24-byte allocation with requested alignment 16 that triggers the growth
path; the fresh buffer lands at address 24, which is 8-aligned (the arena's
default, which `arena_block_create` is called with) but not 16-aligned. -/
def overlapAlloc1 : Option Nat × Arena := arena_alloc_aligned 24 overlapArena 24 16

/-- A subsequent 8-byte allocation at default alignment from the new head. -/
def overlapAlloc2 : Option Nat × Arena := arena_alloc_aligned 999 overlapAlloc1.2 8 8

/-! ### Claims -/

/-- Claim C1.  The code violates the claim: `arena_calloc` computes
`count * size` in wrapping 64-bit arithmetic with no overflow check (its own
header documentation says it checks), so for `count = 2^63 + 1`, `size = 2`
the product overflows yet calloc returns a pointer and bumps `used` to the
wrapped total 2. -/
theorem calloc_overflow_wraps :
    (2 ^ 63 + 1) * 2 > U64 - 1 ∧
    (arena_calloc 0 (arena_create 0 1024) (2 ^ 63 + 1) 2).1 = some 0 ∧
    arena_used (arena_calloc 0 (arena_create 0 1024) (2 ^ 63 + 1) 2).2 = 2 := by
  refine ⟨by norm_num [U64], by decide, by decide⟩

/-- Claim C3.  The code violates the claim: `arena_realloc` rejects a NULL
`ptr` outright (returns NULL, arena untouched), while a plain allocation of
the same `new_size = 16` on the same fresh arena succeeds and advances
`used` to 16.  The header documentation says a NULL `ptr` behaves like
`arena_alloc(new_size)`. -/
theorem realloc_null_ptr_returns_none :
    arena_realloc 0 (arena_create 0 1024) none 0 16 = (none, arena_create 0 1024) ∧
    (arena_alloc 0 (arena_create 0 1024) 16).1 = some 0 ∧
    arena_used (arena_alloc 0 (arena_create 0 1024) 16).2 = 16 := by
  refine ⟨rfl, by decide, by decide⟩

/-- Claim C8: `arena_create` with capacity 0 reserves one block of the
positive default capacity 1024 and makes it the arena's head. -/
theorem create_zero_uses_default_capacity (freshBase : Nat) :
    (arena_create freshBase 0).blocks =
      [{ base := freshBase, capacity := 1024, used := 0 }] ∧
    0 < ((arena_create freshBase 0).blocks.getD 0 (arena_block_create 0 0)).capacity := by
  exact ⟨rfl, by norm_num [arena_create, arena_create_with_alignment, arena_block_create]⟩

/-- Claim C10: after `arena_destroy` the arena's head is null, every
allocation entry point fails without changing anything, `used` and
`remaining` report 0, and destroying again is a no-op. -/
theorem destroy_invalidates_arena (arena : Arena) (fb size alignment count sz : Nat) :
    (arena_destroy arena).blocks = [] ∧
    arena_alloc_aligned fb (arena_destroy arena) size alignment =
      (none, arena_destroy arena) ∧
    arena_alloc fb (arena_destroy arena) size = (none, arena_destroy arena) ∧
    arena_alloc_zeroed fb (arena_destroy arena) size = (none, arena_destroy arena) ∧
    arena_calloc fb (arena_destroy arena) count sz = (none, arena_destroy arena) ∧
    arena_used (arena_destroy arena) = 0 ∧
    arena_remaining (arena_destroy arena) = 0 ∧
    arena_destroy (arena_destroy arena) = arena_destroy arena := by
  exact ⟨rfl, rfl, rfl, rfl, rfl, rfl, rfl, rfl⟩

/-- Counterexample to claim C2 as stated: with head capacity 100 and a
request of 150 bytes the growth path runs (two blocks afterwards, allocation
succeeds), but the new head's capacity is `2 * 100 = 200`, which is less
than `max (2 * 100) (2 * 150) = 300`. -/
theorem growth_capacity_counterexample :
    (arena_alloc_aligned 4096 (arena_create 0 100) 150 8).1 = some 4096 ∧
    (arena_alloc_aligned 4096 (arena_create 0 100) 150 8).2.blocks.length = 2 ∧
    ((arena_alloc_aligned 4096 (arena_create 0 100) 150 8).2.blocks.getD 0
      (arena_block_create 0 0)).capacity = 200 ∧
    ¬ (max (2 * 100) (2 * 150) ≤ 200) := by
  refine ⟨by decide, by decide, by decide, by decide⟩

/-- Counterexample to claim C4 as stated: `arena_realloc` of the most recent
allocation to a smaller size is a public-API operation other than reset and
temporary-scope end, yet it lowers the head block's used counter from 100 to
50 (in-place shrink). -/
theorem realloc_shrink_counterexample :
    arena_used (arena_alloc 0 (arena_create 0 1024) 100).2 = 100 ∧
    (arena_realloc 0 (arena_alloc 0 (arena_create 0 1024) 100).2 (some 0) 100 50).1 =
      some 0 ∧
    arena_used
      (arena_realloc 0 (arena_alloc 0 (arena_create 0 1024) 100).2 (some 0) 100 50).2 =
      50 ∧
    (50:Nat) < 100 := by
  refine ⟨by decide, by decide, by decide, by decide⟩

/-- Counterexample to claim C7 as stated: allocating `2^63 + 512` bytes from
a fresh 1024-byte arena takes the growth path; `size * 2` wraps to 1024, so
the new head block has capacity 1024 but used counter `2^63 + 512`, breaking
`used ≤ capacity`. -/
theorem used_le_capacity_counterexample :
    (arena_alloc 0 (arena_create 0 1024) (2 ^ 63 + 512)).1 = some 0 ∧
    ((arena_alloc 0 (arena_create 0 1024) (2 ^ 63 + 512)).2.blocks.getD 0
      (arena_block_create 0 0)).capacity = 1024 ∧
    ((arena_alloc 0 (arena_create 0 1024) (2 ^ 63 + 512)).2.blocks.getD 0
      (arena_block_create 0 0)).used = 2 ^ 63 + 512 ∧
    ¬ (((arena_alloc 0 (arena_create 0 1024) (2 ^ 63 + 512)).2.blocks.getD 0
      (arena_block_create 0 0)).used ≤
       ((arena_alloc 0 (arena_create 0 1024) (2 ^ 63 + 512)).2.blocks.getD 0
      (arena_block_create 0 0)).capacity) := by
  refine ⟨by decide, by decide, by decide, by decide⟩

/-- Claim C9.  The code violates the implicit containment/disjointness
property: on the growth path `new_block->used` is set to `size` alone,
ignoring the padding inserted when the fresh buffer (8-aligned, at address
24) is not aligned to the requested alignment 16.  The first allocation
returns the range [32, 56) although `buffer + used = 48`, and a second
allocation returns [48, 56), overlapping the first. -/
theorem growth_alignment_overlap :
    overlapAlloc1.1 = some 32 ∧
    overlapAlloc1.2.blocks.getD 0 (arena_block_create 0 0) =
      { base := 24, capacity := 32, used := 24 } ∧
    32 + 24 > 24 + 24 ∧
    overlapAlloc2.1 = some 48 ∧
    48 < 32 + 24 ∧ 32 < 48 + 8 := by
  refine ⟨by decide, by decide, by decide, by decide, by decide, by decide⟩

/-! ### Shape lemmas about the allocation engine -/

/-- Every pointer returned by `arena_alloc_aligned` is an `align_forward` of
some address at the normalized alignment. -/
theorem alloc_aligned_ptr_shape (fb : Nat) (a : Arena) (s al addr : Nat)
    (h : (arena_alloc_aligned fb a s al).1 = some addr) :
    ∃ x, addr = align_forward x (normalizeAlignment a al) := by
  unfold arena_alloc_aligned at h
  rcases hb : a.blocks with _ | ⟨b, rest⟩ <;> rw [hb] at h
  · simp at h
  · dsimp only at h
    by_cases hs : s = 0
    · rw [if_pos hs] at h
      simp at h
    · rw [if_neg hs] at h
      split at h
      · exact ⟨_, (Option.some.injEq _ _).mp h.symm⟩
      · exact ⟨fb, (Option.some.injEq _ _).mp h.symm⟩

/-- Claim C5: every pointer returned by a successful aligned allocation from
a well-formed arena is a multiple of the effective alignment
`normalizeAlignment` (requested alignment, replaced by the arena default
when zero or not a power of two, then clamped to `max_align`). -/
theorem alloc_aligned_respects_alignment (fb : Nat) (arena : Arena)
    (size alignment addr : Nat) (hwf : arena.WF)
    (hres : (arena_alloc_aligned fb arena size alignment).1 = some addr) :
    addr % normalizeAlignment arena alignment = 0 := by
  obtain ⟨k, hk4, heff⟩ :=
    normalizeAlignment_two_pow arena alignment hwf.2.1.1 hwf.2.1.2 hwf.2.2
  obtain ⟨x, hx⟩ := alloc_aligned_ptr_shape fb arena size alignment addr hres
  rw [hx, heff]
  exact align_forward_mod (by omega)

/-- A concrete well-formed arena used by witnesses. -/
def wfArena64 : Arena :=
  { blocks := [{ base := 0, capacity := 64, used := 10 }], alignment := 8, max_align := 16 }

/-- Witness for the alignment law: a 5-byte allocation at requested
alignment 4 from `wfArena64` returns address 12, a multiple of 4. -/
theorem alloc_aligned_respects_alignment_witness :
    wfArena64.WF ∧
    (arena_alloc_aligned 0 wfArena64 5 4).1 = some 12 ∧
    12 % normalizeAlignment wfArena64 4 = 0 :=
  ⟨by decide, by decide,
   alloc_aligned_respects_alignment 0 wfArena64 5 4 12 (by decide) (by decide)⟩

/-! ### Temporary-scope rollback -/

/-- Run a sequence of `arena_alloc_aligned` calls; each entry of `ops` is
`(freshBase, size, alignment)`. -/
def runAllocs (ops : List (Nat × Nat × Nat)) (arena : Arena) : Arena :=
  ops.foldl (fun a op => (arena_alloc_aligned op.1 a op.2.1 op.2.2).2) arena

theorem runAllocs_nil (arena : Arena) : runAllocs [] arena = arena := rfl

theorem runAllocs_cons (op : Nat × Nat × Nat) (ops : List (Nat × Nat × Nat)) (arena : Arena) :
    runAllocs (op :: ops) arena =
      runAllocs ops (arena_alloc_aligned op.1 arena op.2.1 op.2.2).2 := rfl

/-- One allocation either rewrites the head block's used counter in place,
leaves the arena unchanged, or prepends a fresh block; the other fields and
all other blocks are untouched. -/
theorem alloc_aligned_blocks_shape (fb s al : Nat) (a : Arena) :
    (arena_alloc_aligned fb a s al).2.alignment = a.alignment ∧
    (arena_alloc_aligned fb a s al).2.max_align = a.max_align ∧
    ((∃ b rest u, a.blocks = b :: rest ∧
        (arena_alloc_aligned fb a s al).2.blocks = { b with used := u } :: rest) ∨
     (arena_alloc_aligned fb a s al).2.blocks = a.blocks ∨
     (∃ nb, (arena_alloc_aligned fb a s al).2.blocks = nb :: a.blocks)) := by
  unfold arena_alloc_aligned
  rcases hb : a.blocks with _ | ⟨b, rest⟩
  · exact ⟨rfl, rfl, Or.inr (Or.inl hb)⟩
  · dsimp only
    by_cases hs : s = 0
    · rw [if_pos hs]
      exact ⟨rfl, rfl, Or.inr (Or.inl hb)⟩
    · rw [if_neg hs]
      split
      · exact ⟨rfl, rfl, Or.inl ⟨b, rest, _, rfl, rfl⟩⟩
      · exact ⟨rfl, rfl, Or.inr (Or.inr ⟨_, rfl⟩)⟩

/-- Allocation never removes blocks. -/
theorem alloc_aligned_blocks_length (fb s al : Nat) (a : Arena) :
    a.blocks.length ≤ (arena_alloc_aligned fb a s al).2.blocks.length := by
  obtain ⟨-, -, hshape⟩ := alloc_aligned_blocks_shape fb s al a
  rcases hshape with ⟨b, rest, u, hb, h⟩ | h | ⟨nb, h⟩
  · rw [hb, h]
    simp
  · rw [h]
  · rw [h]
    simp

theorem runAllocs_length (ops : List (Nat × Nat × Nat)) (arena : Arena) :
    arena.blocks.length ≤ (runAllocs ops arena).blocks.length := by
  induction ops generalizing arena with
  | nil => exact Nat.le_refl _
  | cons op ops ih =>
    rw [runAllocs_cons]
    exact le_trans (alloc_aligned_blocks_length op.1 op.2.1 op.2.2 arena)
      (ih (arena_alloc_aligned op.1 arena op.2.1 op.2.2).2)

/-- If a run of allocations creates no new block (the block count is
unchanged), the arena afterwards differs from the original at most in the
head block's used counter. -/
theorem runAllocs_no_growth (ops : List (Nat × Nat × Nat)) (a : Arena)
    (h : (runAllocs ops a).blocks.length = a.blocks.length) :
    (a.blocks = [] → (runAllocs ops a).blocks = []) ∧
    (∀ b rest, a.blocks = b :: rest →
      ∃ u, (runAllocs ops a).blocks = { b with used := u } :: rest) := by
  induction ops generalizing a with
  | nil =>
    refine ⟨fun hb => by rw [runAllocs_nil, hb], fun b rest hb => ⟨b.used, ?_⟩⟩
    rw [runAllocs_nil, hb]
  | cons op ops ih =>
    rw [runAllocs_cons] at h ⊢
    have hstep := alloc_aligned_blocks_length op.1 op.2.1 op.2.2 a
    have hrest := runAllocs_length ops (arena_alloc_aligned op.1 a op.2.1 op.2.2).2
    have h1 : (arena_alloc_aligned op.1 a op.2.1 op.2.2).2.blocks.length =
        a.blocks.length := by omega
    obtain ⟨ihnil, ihcons⟩ := ih (arena_alloc_aligned op.1 a op.2.1 op.2.2).2 (by omega)
    obtain ⟨-, -, hshape⟩ := alloc_aligned_blocks_shape op.1 op.2.1 op.2.2 a
    constructor
    · intro hb
      rcases hshape with ⟨b, rest, u, hb2, hblocks⟩ | hblocks | ⟨nb, hblocks⟩
      · rw [hb] at hb2
        exact absurd hb2 (by simp)
      · exact ihnil (hblocks.trans hb)
      · rw [hblocks, hb] at h1
        simp at h1
    · intro b rest hb
      rcases hshape with ⟨b2, rest2, u, hb2, hblocks⟩ | hblocks | ⟨nb, hblocks⟩
      · rw [hb] at hb2
        injection hb2 with hbe hre
        subst hbe
        subst hre
        obtain ⟨u2, hu2⟩ := ihcons { b with used := u } rest hblocks
        exact ⟨u2, hu2⟩
      · exact ihcons b rest (hblocks.trans hb)
      · rw [hblocks, hb] at h1
        simp at h1

theorem arena_used_congr_blocks (a1 a2 : Arena) (h : a1.blocks = a2.blocks) :
    arena_used a1 = arena_used a2 := by
  unfold arena_used
  rw [h]

theorem arena_temp_end_blocks (a : Arena) (saved : Nat) (b : ArenaBlock)
    (rest : List ArenaBlock) (h : a.blocks = b :: rest) :
    (arena_temp_end a saved).blocks = { b with used := saved } :: rest := by
  unfold arena_temp_end
  rw [h]

theorem arena_temp_begin_eq (a : Arena) (b : ArenaBlock) (rest : List ArenaBlock)
    (h : a.blocks = b :: rest) : arena_temp_begin a = b.used := by
  unfold arena_temp_begin
  rw [h]

/-- Claim C6 (rollback law): for any sequence of allocations performed
between `arena_temp_begin` and a matching `arena_temp_end` during which no
block growth happened (the block count is unchanged), `arena_used` after the
rollback equals `arena_used` at the time of `begin` — indeed the whole block
list is restored. -/
theorem temp_scope_rollback (arena : Arena) (ops : List (Nat × Nat × Nat))
    (hng : (runAllocs ops arena).blocks.length = arena.blocks.length) :
    arena_used (arena_temp_end (runAllocs ops arena) (arena_temp_begin arena)) =
      arena_used arena := by
  obtain ⟨hnil, hcons⟩ := runAllocs_no_growth ops arena hng
  rcases hb : arena.blocks with _ | ⟨b, rest⟩
  · have h1 : (runAllocs ops arena).blocks = [] := hnil hb
    apply arena_used_congr_blocks
    unfold arena_temp_end
    rw [h1]
    exact h1.trans hb.symm
  · obtain ⟨u, hu⟩ := hcons b rest hb
    apply arena_used_congr_blocks
    rw [arena_temp_begin_eq arena b rest hb,
        arena_temp_end_blocks (runAllocs ops arena) b.used { b with used := u } rest hu,
        hb]

/-- Witness for the rollback law: two small allocations inside a scope on a
fresh 1024-byte arena, then `arena_temp_end`; `arena_used` returns to 0. -/
theorem temp_scope_rollback_witness :
    (runAllocs [(0, 10, 8), (0, 20, 8)] (arena_create 0 1024)).blocks.length =
      (arena_create 0 1024).blocks.length ∧
    arena_used (arena_temp_end (runAllocs [(0, 10, 8), (0, 20, 8)] (arena_create 0 1024))
      (arena_temp_begin (arena_create 0 1024))) = arena_used (arena_create 0 1024) :=
  ⟨by decide, temp_scope_rollback (arena_create 0 1024) [(0, 10, 8), (0, 20, 8)] (by decide)⟩

/-! ### The growth law -/

/-- Claim C2, amended: when an allocation of `size` bytes does not fit in the
head block (and sizes stay below `2^63` so the doubling cannot wrap), a new
head block is created whose capacity is `2 * capacity` if that is at least
`size` and `2 * size` otherwise — hence at least `max (2 * capacity) size`
(but not necessarily `2 * size`) — and the allocation succeeds from it. -/
theorem growth_capacity_law (fb : Nat) (arena : Arena) (size alignment : Nat)
    (b : ArenaBlock) (rest : List ArenaBlock)
    (hb : arena.blocks = b :: rest)
    (hs : 0 < size) (hs63 : size < 2 ^ 63) (hcap : b.capacity < 2 ^ 63)
    (hnofit : b.capacity <
      wrap64 (b.used + bumpPadding b (normalizeAlignment arena alignment) + size)) :
    (arena_alloc_aligned fb arena size alignment).1 =
      some (align_forward fb (normalizeAlignment arena alignment)) ∧
    ∃ nb, (arena_alloc_aligned fb arena size alignment).2.blocks = nb :: b :: rest ∧
      max (2 * b.capacity) size ≤ nb.capacity ∧ nb.used = size := by
  have h2cap : wrap64 (b.capacity * 2) = b.capacity * 2 :=
    wrap64_eq_of_lt (by rw [U64_eq]; omega)
  unfold arena_alloc_aligned
  rw [hb]
  dsimp only
  rw [if_neg (by omega : ¬ size = 0), if_neg (Nat.not_le_of_lt hnofit)]
  refine ⟨rfl, _, rfl, ?_, rfl⟩
  by_cases hlt : wrap64 (b.capacity * 2) < size
  · rw [if_pos hlt]
    have h2s : wrap64 (size * 2) = size * 2 := wrap64_eq_of_lt (by rw [U64_eq]; omega)
    rw [h2cap] at hlt
    dsimp only [arena_block_create]
    rw [h2s]
    omega
  · rw [if_neg hlt]
    rw [h2cap] at hlt ⊢
    dsimp only [arena_block_create]
    omega

/-- Witness for the amended growth law: head capacity 100, request 300;
the new head gets capacity 600 and the allocation succeeds. -/
theorem growth_capacity_law_witness :
    (arena_create 0 100).blocks = [{ base := 0, capacity := 100, used := 0 }] ∧
    (100:Nat) <
      wrap64 (0 + bumpPadding { base := 0, capacity := 100, used := 0 }
        (normalizeAlignment (arena_create 0 100) 8) + 300) ∧
    ((arena_alloc_aligned 4096 (arena_create 0 100) 300 8).1 =
      some (align_forward 4096 (normalizeAlignment (arena_create 0 100) 8)) ∧
     ∃ nb, (arena_alloc_aligned 4096 (arena_create 0 100) 300 8).2.blocks =
        nb :: { base := 0, capacity := 100, used := 0 } :: [] ∧
        max (2 * 100) 300 ≤ nb.capacity ∧ nb.used = 300) :=
  ⟨by decide, by decide,
   growth_capacity_law 4096 (arena_create 0 100) 300 8
     { base := 0, capacity := 100, used := 0 } [] (by decide) (by decide)
     (by decide) (by decide) (by decide)⟩

/-! ### Characterization of a single allocation -/

/-- Full case analysis of `arena_alloc_aligned` on a nonempty arena with a
nonzero size: either the bump fits and the head's used counter advances, or
a new head block is created. -/
theorem alloc_aligned_cases (fb s al : Nat) (a : Arena) (b : ArenaBlock)
    (rest : List ArenaBlock) (hb : a.blocks = b :: rest) (hs : s ≠ 0) :
    (wrap64 (b.used + bumpPadding b (normalizeAlignment a al) + s) ≤ b.capacity ∧
     arena_alloc_aligned fb a s al =
       (some (align_forward (wrap64 (b.base + b.used)) (normalizeAlignment a al)),
        { a with blocks :=
            { b with used := wrap64 (b.used + bumpPadding b (normalizeAlignment a al) + s) } ::
              rest })) ∨
    (b.capacity < wrap64 (b.used + bumpPadding b (normalizeAlignment a al) + s) ∧
     arena_alloc_aligned fb a s al =
       (some (align_forward fb (normalizeAlignment a al)),
        { a with blocks :=
            { base := fb,
              capacity := if wrap64 (b.capacity * 2) < s then wrap64 (s * 2)
                          else wrap64 (b.capacity * 2),
              used := s } :: b :: rest })) := by
  unfold arena_alloc_aligned
  rw [hb]
  dsimp only
  rw [if_neg hs]
  by_cases hfit : wrap64 (b.used + bumpPadding b (normalizeAlignment a al) + s) ≤ b.capacity
  · left
    refine ⟨hfit, ?_⟩
    rw [if_pos hfit]
  · right
    refine ⟨Nat.lt_of_not_le hfit, ?_⟩
    rw [if_neg hfit]
    rfl

/-- The padding inserted by the bump path is below the (power-of-two)
alignment, for blocks within the modelled address bounds. -/
theorem bumpPadding_lt (b : ArenaBlock) (k : Nat) (hk : k ≤ 4)
    (hub : b.used ≤ b.capacity) (hbase : b.base + b.capacity + 16 ≤ 2 ^ 63) :
    bumpPadding b (2 ^ k) < 2 ^ k := by
  have hk16 : (2:Nat) ^ k ≤ 16 := by
    calc (2:Nat) ^ k ≤ 2 ^ 4 := Nat.pow_le_pow_right (by norm_num) hk
    _ = 16 := by norm_num
  have hcur : wrap64 (b.base + b.used) = b.base + b.used :=
    wrap64_eq_of_lt (by rw [U64_eq]; omega)
  have h1 : b.base + b.used + 2 ^ k ≤ 2 ^ 64 := by omega
  have hge := align_forward_ge (x := b.base + b.used) (k := k) (by omega) h1
  have hlt := align_forward_lt_add (x := b.base + b.used) (k := k) (by omega) h1
  unfold bumpPadding
  rw [hcur, sub64_eq_sub hge (by rw [U64_eq]; omega)]
  omega

/-! ### Single public-API operations -/

/-- One call of the public allocation/introspection API, with the model
parameters (fresh buffer bases, string contents) made explicit. -/
inductive ArenaOp where
  | opAllocAligned (freshBase size alignment : Nat)
  | opAlloc (freshBase size : Nat)
  | opAllocZeroed (freshBase size : Nat)
  | opCalloc (freshBase count size : Nat)
  | opRealloc (freshBase : Nat) (ptr : Option Nat) (old_size new_size : Nat)
  | opStrdup (freshBase : Nat) (str : Option (List Nat))
  | opStrndup (freshBase : Nat) (str : Option (List Nat)) (n : Nat)
  | opUsedQuery
  | opRemainingQuery
  | opTempBegin
  | opReset
  | opTempEnd (saved : Nat)
deriving Repr, DecidableEq

/-- The state transition of one public-API call. -/
def ArenaOp.apply : ArenaOp → Arena → Arena
  | .opAllocAligned fb s al, a => (arena_alloc_aligned fb a s al).2
  | .opAlloc fb s, a => (arena_alloc fb a s).2
  | .opAllocZeroed fb s, a => (arena_alloc_zeroed fb a s).2
  | .opCalloc fb c s, a => (arena_calloc fb a c s).2
  | .opRealloc fb p os ns, a => (arena_realloc fb a p os ns).2
  | .opStrdup fb str, a => (arena_strdup fb a str).2
  | .opStrndup fb str n, a => (arena_strndup fb a str n).2
  | .opUsedQuery, a => a
  | .opRemainingQuery, a => a
  | .opTempBegin, a => a
  | .opReset, a => arena_reset a
  | .opTempEnd saved, a => arena_temp_end a saved

/-- Side conditions keeping an operation's 64-bit arithmetic wrap-free:
every effective allocation size stays below `2^63` (so the growth doubling
cannot overflow), realloc's pointer and old size are representable, and a
scope token's saved counter fits the head block it is restored into. -/
def ArenaOp.sizeOK : ArenaOp → Arena → Prop
  | .opAllocAligned _ s _, _ => s < 2 ^ 63
  | .opAlloc _ s, _ => s < 2 ^ 63
  | .opAllocZeroed _ s, _ => s < 2 ^ 63
  | .opCalloc _ c s, _ => wrap64 (c * s) < 2 ^ 63
  | .opRealloc _ p os ns, _ =>
      ns < 2 ^ 63 ∧ os < U64 ∧ (∀ q, p = some q → q < U64)
  | .opStrdup _ str, _ => ∀ s, str = some s → wrap64 (s.length + 1) < 2 ^ 63
  | .opStrndup _ str n, _ =>
      ∀ s, str = some s → wrap64 ((if s.length > n then n else s.length) + 1) < 2 ^ 63
  | .opTempEnd saved, a => ∀ b rest, a.blocks = b :: rest → saved ≤ b.capacity
  | _, _ => True

/-- Reset and temporary-scope end: the two operations the spec exempts from
used-counter monotonicity. -/
def ArenaOp.isRollback : ArenaOp → Bool
  | .opReset => true
  | .opTempEnd _ => true
  | _ => false

/-- A realloc request to a strictly smaller size (which may shrink the head
block's used counter in place). -/
def ArenaOp.isShrinkingRealloc : ArenaOp → Bool
  | .opRealloc _ _ os ns => decide (ns < os)
  | _ => false

/-! ### Claim C7: used stays within capacity -/

theorem alloc_aligned_preserves_bounds (fb s al : Nat) (a : Arena)
    (hinv : ∀ b ∈ a.blocks, b.used ≤ b.capacity) (hs : s < 2 ^ 63) :
    ∀ b2 ∈ (arena_alloc_aligned fb a s al).2.blocks, b2.used ≤ b2.capacity := by
  rcases hblocks : a.blocks with _ | ⟨b, rest⟩
  · have heq : arena_alloc_aligned fb a s al = (none, a) := by
      unfold arena_alloc_aligned
      rw [hblocks]
    rw [heq]
    exact hinv
  · by_cases hs0 : s = 0
    · have heq : arena_alloc_aligned fb a s al = (none, a) := by
        unfold arena_alloc_aligned
        rw [hblocks]
        dsimp only
        rw [if_pos hs0]
      rw [heq]
      exact hinv
    · have hbmem : b ∈ a.blocks := by
        rw [hblocks]
        exact List.mem_cons_self _ _
      rcases alloc_aligned_cases fb s al a b rest hblocks hs0 with ⟨hfit, heq⟩ | ⟨hnofit, heq⟩
      · rw [heq]
        intro b2 hmem
        simp only [List.mem_cons] at hmem
        rcases hmem with rfl | hmem
        · exact hfit
        · exact hinv b2 (by rw [hblocks]; exact List.mem_cons_of_mem _ hmem)
      · rw [heq]
        intro b2 hmem
        simp only [List.mem_cons] at hmem
        rcases hmem with rfl | rfl | hmem
        · dsimp only
          by_cases hlt : wrap64 (b.capacity * 2) < s
          · rw [if_pos hlt]
            have h2s : wrap64 (s * 2) = s * 2 := wrap64_eq_of_lt (by rw [U64_eq]; omega)
            omega
          · rw [if_neg hlt]
            omega
        · exact hinv _ hbmem
        · exact hinv b2 (by rw [hblocks]; exact List.mem_cons_of_mem _ hmem)

theorem realloc_preserves_bounds (fb : Nat) (a : Arena) (p : Option Nat) (os ns : Nat)
    (hinv : ∀ b ∈ a.blocks, b.used ≤ b.capacity) (hns : ns < 2 ^ 63) :
    ∀ b2 ∈ (arena_realloc fb a p os ns).2.blocks, b2.used ≤ b2.capacity := by
  unfold arena_realloc
  rcases p with _ | q
  · exact hinv
  · dsimp only
    by_cases hns0 : ns = 0
    · rw [if_pos hns0]
      exact hinv
    · rw [if_neg hns0]
      rcases hblocks : a.blocks with _ | ⟨b, rest⟩
      · exact hinv
      · dsimp only
        split
        next h =>
          intro b2 hmem
          simp only [List.mem_cons] at hmem
          rcases hmem with rfl | hmem
          · exact h.2
          · exact hinv b2 (by rw [hblocks]; exact List.mem_cons_of_mem _ hmem)
        next h =>
          exact alloc_aligned_preserves_bounds fb ns a.alignment a hinv hns

/-- Claim C7, amended: after any single public-API operation whose requested
sizes stay below `2^63` (and whose scope token, for `arena_temp_end`, fits the
head block's capacity), every block still satisfies `used ≤ capacity`,
provided every block satisfied it before. -/
theorem op_preserves_used_le_capacity (op : ArenaOp) (arena : Arena)
    (hinv : ∀ b ∈ arena.blocks, b.used ≤ b.capacity) (hop : op.sizeOK arena) :
    ∀ b ∈ (op.apply arena).blocks, b.used ≤ b.capacity := by
  cases op with
  | opAllocAligned fb s al => exact alloc_aligned_preserves_bounds fb s al arena hinv hop
  | opAlloc fb s => exact alloc_aligned_preserves_bounds fb s arena.alignment arena hinv hop
  | opAllocZeroed fb s => exact alloc_aligned_preserves_bounds fb s arena.alignment arena hinv hop
  | opCalloc fb c s =>
    exact alloc_aligned_preserves_bounds fb (wrap64 (c * s)) arena.alignment arena hinv hop
  | opRealloc fb p os ns => exact realloc_preserves_bounds fb arena p os ns hinv hop.1
  | opStrdup fb str =>
    cases str with
    | none => exact hinv
    | some s =>
      exact alloc_aligned_preserves_bounds fb (wrap64 (s.length + 1)) arena.alignment arena
        hinv (hop s rfl)
  | opStrndup fb str n =>
    cases str with
    | none => exact hinv
    | some s =>
      exact alloc_aligned_preserves_bounds fb
        (wrap64 ((if s.length > n then n else s.length) + 1)) arena.alignment arena
        hinv (hop s rfl)
  | opUsedQuery => exact hinv
  | opRemainingQuery => exact hinv
  | opTempBegin => exact hinv
  | opReset =>
    intro b hmem
    simp only [ArenaOp.apply, arena_reset, List.mem_map] at hmem
    obtain ⟨c, hc, rfl⟩ := hmem
    exact Nat.zero_le _
  | opTempEnd saved =>
    rcases hblocks : arena.blocks with _ | ⟨b, rest⟩
    · have heq : arena_temp_end arena saved = arena := by
        unfold arena_temp_end
        rw [hblocks]
      show ∀ b2 ∈ (arena_temp_end arena saved).blocks, b2.used ≤ b2.capacity
      rw [heq]
      exact hinv
    · show ∀ b2 ∈ (arena_temp_end arena saved).blocks, b2.used ≤ b2.capacity
      rw [arena_temp_end_blocks arena saved b rest hblocks]
      intro b2 hmem
      simp only [List.mem_cons] at hmem
      rcases hmem with rfl | hmem
      · exact hop b rest hblocks
      · exact hinv b2 (by rw [hblocks]; exact List.mem_cons_of_mem _ hmem)

/-- Witness for the amended C7 invariant at a concrete operation. -/
theorem op_preserves_used_le_capacity_witness :
    (∀ b ∈ (arena_create 0 1024).blocks, b.used ≤ b.capacity) ∧
    (16:Nat) < 2 ^ 63 ∧
    ∀ b ∈ ((ArenaOp.opAlloc 0 16).apply (arena_create 0 1024)).blocks,
      b.used ≤ b.capacity :=
  ⟨by decide, by decide,
   op_preserves_used_le_capacity (ArenaOp.opAlloc 0 16) (arena_create 0 1024)
     (by decide) (by decide : (16:Nat) < 2 ^ 63)⟩

/-! ### Claim C4: used counters never decrease outside rollback -/

theorem forall2_used_refl (l : List ArenaBlock) :
    List.Forall₂ (fun b b2 => b.used ≤ b2.used) l l := by
  induction l with
  | nil => exact List.Forall₂.nil
  | cons b l ih => exact List.Forall₂.cons (Nat.le_refl _) ih

theorem alloc_aligned_monotone (fb s al : Nat) (a : Arena) (hwf : a.WF)
    (hs : s < 2 ^ 63) :
    List.Forall₂ (fun b b2 => b.used ≤ b2.used) a.blocks
      ((arena_alloc_aligned fb a s al).2.blocks.drop
        ((arena_alloc_aligned fb a s al).2.blocks.length - a.blocks.length)) := by
  rcases hblocks : a.blocks with _ | ⟨b, rest⟩
  · have heq : arena_alloc_aligned fb a s al = (none, a) := by
      unfold arena_alloc_aligned
      rw [hblocks]
    rw [heq]
    dsimp only
    rw [hblocks]
    exact List.Forall₂.nil
  · by_cases hs0 : s = 0
    · have heq : arena_alloc_aligned fb a s al = (none, a) := by
        unfold arena_alloc_aligned
        rw [hblocks]
        dsimp only
        rw [if_pos hs0]
      rw [heq]
      dsimp only
      rw [hblocks]
      simp only [Nat.sub_self, List.drop_zero]
      exact forall2_used_refl _
    · rcases alloc_aligned_cases fb s al a b rest hblocks hs0 with ⟨hfit, heq⟩ | ⟨hnofit, heq⟩
      · rw [heq]
        dsimp only
        simp only [List.length_cons, Nat.sub_self, List.drop_zero]
        refine List.Forall₂.cons ?_ (forall2_used_refl rest)
        show b.used ≤ wrap64 (b.used + bumpPadding b (normalizeAlignment a al) + s)
        have hbmem : b ∈ a.blocks := by
          rw [hblocks]
          exact List.mem_cons_self _ _
        obtain ⟨hub, hbase⟩ := hwf.1 b hbmem
        obtain ⟨k, hk4, heffA⟩ :=
          normalizeAlignment_two_pow a al hwf.2.1.1 hwf.2.1.2 hwf.2.2
        have hpad : bumpPadding b (normalizeAlignment a al) < 2 ^ k := by
          rw [heffA]
          exact bumpPadding_lt b k hk4 hub hbase
        have hk16 : (2:Nat) ^ k ≤ 16 :=
          le_trans (Nat.pow_le_pow_right (by norm_num) hk4) (by norm_num)
        have hnw : b.used + bumpPadding b (normalizeAlignment a al) + s < U64 := by
          rw [U64_eq]
          omega
        rw [wrap64_eq_of_lt hnw]
        omega
      · rw [heq]
        dsimp only
        simp only [List.length_cons]
        have hd : rest.length + 1 + 1 - (rest.length + 1) = 1 := by omega
        rw [hd]
        simp only [List.drop_succ_cons, List.drop_zero]
        exact List.Forall₂.cons (Nat.le_refl _) (forall2_used_refl rest)

theorem realloc_monotone (fb : Nat) (a : Arena) (p : Option Nat) (os ns : Nat)
    (hwf : a.WF)
    (hsz : ns < 2 ^ 63 ∧ os < U64 ∧ (∀ q, p = some q → q < U64))
    (hshrink : ¬ ns < os) :
    List.Forall₂ (fun b b2 => b.used ≤ b2.used) a.blocks
      ((arena_realloc fb a p os ns).2.blocks.drop
        ((arena_realloc fb a p os ns).2.blocks.length - a.blocks.length)) := by
  unfold arena_realloc
  rcases p with _ | q
  · dsimp only
    simp only [Nat.sub_self, List.drop_zero]
    exact forall2_used_refl _
  · dsimp only
    by_cases hns0 : ns = 0
    · rw [if_pos hns0]
      dsimp only
      simp only [Nat.sub_self, List.drop_zero]
      exact forall2_used_refl _
    · rw [if_neg hns0]
      rcases hblocks : a.blocks with _ | ⟨b, rest⟩
      · dsimp only
        rw [hblocks]
        exact List.Forall₂.nil
      · dsimp only
        split
        next h =>
          dsimp only
          simp only [List.length_cons, Nat.sub_self, List.drop_zero]
          refine List.Forall₂.cons ?_ (forall2_used_refl rest)
          show b.used ≤ wrap64 (sub64 q b.base + ns)
          obtain ⟨heqp, hle⟩ := h
          have hbmem : b ∈ a.blocks := by
            rw [hblocks]
            exact List.mem_cons_self _ _
          obtain ⟨hub, hbase⟩ := hwf.1 b hbmem
          have hq : q < U64 := hsz.2.2 q rfl
          have hos : os < U64 := hsz.2.1
          have hns : ns < 2 ^ 63 := hsz.1
          simp only [wrap64, sub64, U64] at heqp hq hos ⊢
          omega
        next h =>
          rw [← hblocks]
          exact alloc_aligned_monotone fb ns a.alignment a hwf hsz.1

/-- Claim C4, amended: no public-API operation other than reset,
temporary-scope end, and a realloc to a strictly smaller size ever lowers
any block's used counter (blocks are matched positionally; the growth path
may prepend a fresh block in front of the preserved ones).  Requested sizes
are assumed below `2^63` and realloc arguments representable, so the 64-bit
bump arithmetic cannot wrap. -/
theorem op_used_monotone (op : ArenaOp) (arena : Arena)
    (hwf : arena.WF) (hop : op.sizeOK arena)
    (hrb : op.isRollback = false) (hsh : op.isShrinkingRealloc = false) :
    List.Forall₂ (fun b b2 => b.used ≤ b2.used) arena.blocks
      ((op.apply arena).blocks.drop
        ((op.apply arena).blocks.length - arena.blocks.length)) := by
  cases op with
  | opAllocAligned fb s al => exact alloc_aligned_monotone fb s al arena hwf hop
  | opAlloc fb s => exact alloc_aligned_monotone fb s arena.alignment arena hwf hop
  | opAllocZeroed fb s => exact alloc_aligned_monotone fb s arena.alignment arena hwf hop
  | opCalloc fb c s =>
    exact alloc_aligned_monotone fb (wrap64 (c * s)) arena.alignment arena hwf hop
  | opRealloc fb p os ns =>
    exact realloc_monotone fb arena p os ns hwf hop (of_decide_eq_false hsh)
  | opStrdup fb str =>
    cases str with
    | none =>
      dsimp only [ArenaOp.apply, arena_strdup]
      simp only [Nat.sub_self, List.drop_zero]
      exact forall2_used_refl _
    | some s =>
      exact alloc_aligned_monotone fb (wrap64 (s.length + 1)) arena.alignment arena hwf
        (hop s rfl)
  | opStrndup fb str n =>
    cases str with
    | none =>
      dsimp only [ArenaOp.apply, arena_strndup]
      simp only [Nat.sub_self, List.drop_zero]
      exact forall2_used_refl _
    | some s =>
      exact alloc_aligned_monotone fb (wrap64 ((if s.length > n then n else s.length) + 1))
        arena.alignment arena hwf (hop s rfl)
  | opUsedQuery =>
    dsimp only [ArenaOp.apply]
    simp only [Nat.sub_self, List.drop_zero]
    exact forall2_used_refl _
  | opRemainingQuery =>
    dsimp only [ArenaOp.apply]
    simp only [Nat.sub_self, List.drop_zero]
    exact forall2_used_refl _
  | opTempBegin =>
    dsimp only [ArenaOp.apply]
    simp only [Nat.sub_self, List.drop_zero]
    exact forall2_used_refl _
  | opReset => exact Bool.noConfusion hrb
  | opTempEnd saved => exact Bool.noConfusion hrb

/-- Witness for the amended C4 monotonicity law at a concrete operation. -/
theorem op_used_monotone_witness :
    (arena_create 0 1024).WF ∧
    (16:Nat) < 2 ^ 63 ∧
    (ArenaOp.opAlloc 0 16).isRollback = false ∧
    (ArenaOp.opAlloc 0 16).isShrinkingRealloc = false ∧
    List.Forall₂ (fun b b2 => b.used ≤ b2.used) (arena_create 0 1024).blocks
      (((ArenaOp.opAlloc 0 16).apply (arena_create 0 1024)).blocks.drop
        (((ArenaOp.opAlloc 0 16).apply (arena_create 0 1024)).blocks.length -
          (arena_create 0 1024).blocks.length)) :=
  ⟨by decide, by decide, rfl, rfl,
   op_used_monotone (ArenaOp.opAlloc 0 16) (arena_create 0 1024) (by decide)
     (by decide : (16:Nat) < 2 ^ 63) rfl rfl⟩

end ArenaC
